import Mathlib

/-!
# kpack reconcilers: source resolution and builder status

A shallow embedding of

* `pkg/image/source/resolver.go` (`Resolve.Run`, `Resolve.updateSourceResolver`),
* `pkg/reconciler/v1alpha1/sourceresolver/sourceresolver.go` (`Reconciler.Reconcile`),
* `pkg/reconciler/v1alpha1/builder/builder.go` (`Reconciler.Reconcile`,
  `Reconciler.updateStatus`, `Reconciler.reconcileBuilderStatus`).

Pointers into the lister cache are modelled by explicit state passing: a reconcile
takes the cache and returns the cache it leaves behind.  Calls to the collaborators
(`CanResolve`, `Resolve`, `Enqueue`, `UpdateStatus`) are recorded in call logs.
A nil pointer dereference is the outcome `Outcome.panicked`.
-/

namespace Kpack

/-! ## Errors and outcomes -/

/-- Go `error` values: `errors.New(text)` and knative's `controller.NewPermanentError`
wrapper around another error. A nil error is `none : Option Error`. -/
inductive Error where
  | msg (text : String)
  | notFound (name : String)
  | permanent (cause : Error)
  deriving DecidableEq, Repr

/-- The `err.Error()` text; a permanent error prints the error it wraps. -/
def Error.text : Error → String
  | Error.msg t => t
  | Error.notFound name => name ++ " not found"
  | Error.permanent c => c.text

/-- The apimachinery `errors.IsNotFound`. -/
def IsNotFound : Error → Bool
  | Error.notFound _ => true
  | _ => false

/-- The knative `controller.NewPermanentError`. -/
def NewPermanentError (err : Error) : Error := Error.permanent err

/-- How a `Reconcile` call ends: it returns its `error` result (`none` is nil), or the
goroutine panics on a nil pointer dereference. -/
inductive Outcome where
  | returned (err : Option Error)
  | panicked
  deriving DecidableEq, Repr

/-! ## Status conditions -/

/-- The `corev1.ConditionStatus` values. -/
inductive ConditionStatus where
  | ConditionTrue
  | ConditionFalse
  | ConditionUnknown
  deriving DecidableEq, Repr

/-- A `duckv1alpha1.Condition`; `LastTransitionTime` is an `apis.VolatileTime`, here the
clock reading in ticks. -/
structure Condition where
  CondType : String
  Status : ConditionStatus
  Message : String
  LastTransitionTime : Nat
  deriving DecidableEq, Repr

/-- The `duckv1alpha1.ConditionReady` condition type. -/
def ConditionReady : String := "Ready"

/-- A condition with its volatile time erased. `equality.Semantic` treats any two
`VolatileTime` values as equal, so semantic equality is equality after erasure. -/
def Condition.eraseVolatile (c : Condition) : Condition :=
  { c with LastTransitionTime := 0 }

/-! ## Source resolvers: data model -/

/-- The `v1alpha1.Git` source (fields as used in `test/private_builder_test.go`). -/
structure Git where
  URL : String
  Revision : String
  deriving DecidableEq, Repr

/-- The `v1alpha1.Blob` source. -/
structure Blob where
  URL : String
  deriving DecidableEq, Repr

/-- The `v1alpha1.Registry` source. -/
structure Registry where
  Image : String
  deriving DecidableEq, Repr

/-- The `v1alpha1.SourceConfig` of the test file: one optional branch per source kind. -/
structure SourceConfig where
  Git : Option Git
  Blob : Option Blob
  Registry : Option Registry
  deriving DecidableEq, Repr

/-- Modelled from the spec: the type `v1alpha1.ResolvedSourceConfig` of the absent package
`pkg/apis/build/v1alpha1`, "tagged result, one of {GitResolution{url,revision,resolvedCommit},
BlobResolution{url}, RegistryResolution{imageRef}, Unknown}". -/
inductive ResolvedSourceConfig where
  | GitResolution (url revision resolvedCommit : String)
  | BlobResolution (url : String)
  | RegistryResolution (imageRef : String)
  | Unknown
  deriving DecidableEq, Repr

/-- Modelled from the spec: `config.ResolvedSource().IsUnknown()` of the absent package
`v1alpha1`; true exactly on the `Unknown` result. -/
def ResolvedSourceConfig.IsUnknown : ResolvedSourceConfig → Bool
  | ResolvedSourceConfig.Unknown => true
  | _ => false

/-- Modelled from the spec: `config.ResolvedSource().IsPollable()` of the absent package
`v1alpha1`, "true iff the upstream reference is mutable, e.g. a branch name rather than a
pinned commit": a git revision that is not the commit it resolved to. -/
def ResolvedSourceConfig.IsPollable : ResolvedSourceConfig → Bool
  | ResolvedSourceConfig.GitResolution _ revision resolvedCommit => revision != resolvedCommit
  | _ => false

/-- Modelled from the spec: the status of a `v1alpha1.SourceResolver` (absent package
`v1alpha1`), "{ResolvedSource: discriminated union result, ObservedGeneration, Conditions,
PollingEnabled}"; `Source` is `none` while absent. -/
structure SourceResolverStatus where
  ObservedGeneration : Int
  Conditions : List Condition
  Source : Option ResolvedSourceConfig
  PollingEnabled : Bool
  deriving DecidableEq, Repr

/-- The spec of a source resolver. -/
structure SourceResolverSpec where
  Source : SourceConfig
  deriving DecidableEq, Repr

/-- Modelled from the spec: the type `v1alpha1.SourceResolver` of the absent package
`v1alpha1`: object metadata (`Namespace`, `Name`, `Generation`), `Spec` and `Status`. -/
structure SourceResolver where
  Namespace : String
  Name : String
  Generation : Int
  Spec : SourceResolverSpec
  Status : SourceResolverStatus
  deriving DecidableEq, Repr

/-- The generated `DeepCopy`: a fresh object with the same value. Values have no identity
here; aliasing with the lister cache is tracked by the reconcilers below. -/
def SourceResolver.DeepCopy (sr : SourceResolver) : SourceResolver := sr

/-- The status with every volatile time erased. -/
def SourceResolverStatus.eraseVolatile (s : SourceResolverStatus) : SourceResolverStatus :=
  { s with Conditions := s.Conditions.map Condition.eraseVolatile }

/-- Put condition `c` in a condition list: it takes the place of the condition of the same
type, or is appended when there is none. -/
def setCondition (c : Condition) : List Condition → List Condition
  | [] => [c]
  | d :: rest => if d.CondType = c.CondType then c :: rest else d :: setCondition c rest

/-- Modelled from the spec: `SourceResolver.BecomeReady` of the absent package `v1alpha1`,
"set the ready condition to success state"; `now` is the clock reading stamped on it. -/
def SourceResolver.BecomeReady (now : Nat) (sr : SourceResolver) : SourceResolver :=
  { sr with Status := { sr.Status with
      Conditions := setCondition
        { CondType := ConditionReady, Status := ConditionStatus.ConditionTrue,
          Message := "", LastTransitionTime := now } sr.Status.Conditions } }

/-- Modelled from the spec: `SourceResolver.UpdatePollingStatus` of the absent package
`v1alpha1`, "set `Status.PollingEnabled = resolvedConfig.IsPollable()`". -/
def SourceResolver.UpdatePollingStatus (sr : SourceResolver) (pollable : Bool) :
    SourceResolver :=
  { sr with Status := { sr.Status with PollingEnabled := pollable } }

/-- Modelled from the spec: `SourceResolver.PollingReady` of the absent package `v1alpha1`,
polling eligibility "SourceResolver ⇒ computed `Status.PollingEnabled`". -/
def SourceResolver.PollingReady (sr : SourceResolver) : Bool := sr.Status.PollingEnabled

/-- Modelled from the spec: `SourceResolver.CompareStatus` of the absent package `v1alpha1`,
whose result `Run` returns as `needUpdate`: "compare its Status to the newly computed Status
using full semantic equality; if equal, skip the write ... If different, issue an
update-status call". It reports whether the two statuses differ semantically. -/
def SourceResolver.CompareStatus (sr other : SourceResolver) : Bool :=
  decide (sr.Status.eraseVolatile ≠ other.Status.eraseVolatile)

/-- Whether the ready condition of the object is in the success state. -/
def SourceResolver.Ready (sr : SourceResolver) : Bool :=
  sr.Status.Conditions.any
    (fun c => decide (c.CondType = ConditionReady ∧ c.Status = ConditionStatus.ConditionTrue))

/-! ## `pkg/image/source/resolver.go` -/

/-- The `Resolver` interface: the two methods as functions of the source resolver. -/
structure Resolver where
  Resolve : SourceResolver → ResolvedSourceConfig × Option Error
  CanResolve : SourceResolver → Bool

/-- The `Resolve` struct. -/
structure Resolve where
  Resolvers : List Resolver

/-- A call on a resolver of the list, by the position of the resolver. -/
inductive Call where
  | CanResolve (index : Nat)
  | Resolve (index : Nat)
  deriving DecidableEq, Repr

/-- The `for _, candidateResolver := range r.Resolvers` loop of `Run` with its `break`:
the first candidate whose `CanResolve` is true, with its position, and the `CanResolve`
calls made. `index` is the position of the head of the list. -/
def selectResolver (source : SourceResolver) :
    List Resolver → Nat → Option (Nat × Resolver) × List Call
  | [], _ => (none, [])
  | candidateResolver :: rest, index =>
    if candidateResolver.CanResolve source then
      (some (index, candidateResolver), [Call.CanResolve index])
    else
      ((selectResolver source rest (index + 1)).1,
        Call.CanResolve index :: (selectResolver source rest (index + 1)).2)

/-- The method `Resolve.updateSourceResolver`. -/
def Resolve.updateSourceResolver (now : Nat) (sourceResolver : SourceResolver)
    (config : ResolvedSourceConfig) : SourceResolver :=
  let resolvedSource := config
  if resolvedSource.IsUnknown ∧ sourceResolver.Status.ObservedGeneration = sourceResolver.Generation then
    sourceResolver
  else
    let sourceResolver := sourceResolver.DeepCopy
    let sourceResolver := { sourceResolver with
      Status := { sourceResolver.Status with Source := some config } }
    let sourceResolver := sourceResolver.BecomeReady now
    let sourceResolver := sourceResolver.UpdatePollingStatus resolvedSource.IsPollable
    sourceResolver

/-- The three results of `Run`: the object (`none` is the nil pointer), `needUpdate`, `err`. -/
structure RunResult where
  obj : Option SourceResolver
  needUpdate : Bool
  err : Option Error
  deriving DecidableEq, Repr

/-- The method `Resolve.Run`, with the log of the calls it makes on the resolvers. The
error of `Resolve` is assigned to the named result `err`, and the `return` statement then
gives `nil` as the error. -/
def Resolve.Run (r : Resolve) (now : Nat) (source : SourceResolver) : RunResult × List Call :=
  let oldResolver := source.DeepCopy
  match selectResolver source r.Resolvers 0 with
  | (none, calls) =>
    ({ obj := none, needUpdate := false, err := some (Error.msg "invalid source type") }, calls)
  | (some (index, resolver), calls) =>
    let resolvedSource := (resolver.Resolve oldResolver).1
    let _err := (resolver.Resolve oldResolver).2
    let newSourceResolver := Resolve.updateSourceResolver now oldResolver resolvedSource
    ({ obj := some newSourceResolver,
       needUpdate := newSourceResolver.CompareStatus oldResolver,
       err := none }, calls ++ [Call.Resolve index])

/-! ## Keys and the lister cache -/

/-- The Go `strings.Split(key, "/")` on the characters of the key. -/
def splitSlash : List Char → List (List Char)
  | [] => [[]]
  | c :: rest =>
    if c = '/' then [] :: splitSlash rest
    else
      match splitSlash rest with
      | [] => [[c]]
      | part :: parts => (c :: part) :: parts

/-- The client-go `cache.SplitMetaNamespaceKey`: one part is a name with empty namespace,
two parts are namespace and name, anything else is an error. -/
def SplitMetaNamespaceKey (key : String) : Except Error (String × String) :=
  match splitSlash key.data with
  | [name] => Except.ok ("", String.mk name)
  | [ns, name] => Except.ok (String.mk ns, String.mk name)
  | _ => Except.error (Error.msg ("unexpected key format: " ++ key))

/-- What a lister holds: the answer of `Get` for each namespace and name. -/
abbrev Lister (α : Type) := String → String → Except Error α

/-- The lister after the object under `ns`, `name` has been replaced by `obj`. -/
def Lister.put {α : Type} (l : Lister α) (ns name : String) (obj : α) : Lister α :=
  fun ns2 name2 => if ns2 = ns ∧ name2 = name then Except.ok obj else l ns2 name2

namespace sourceresolver

/-! ## `pkg/reconciler/v1alpha1/sourceresolver/sourceresolver.go` -/

/-- The `Reconciler` struct: the `ResolveSource` interface is its `Run` method, the
`Enqueuer` its `Enqueue` method, the `Client` the error result of `UpdateStatus`. The
`SourceResolverLister` is the `cache` of the `World`. -/
structure Reconciler where
  ResolveSource : SourceResolver → RunResult
  Enqueuer : SourceResolver → Option Error
  UpdateStatus : SourceResolver → Option Error

/-- The state around a reconcile: the objects owned by the lister cache, and the objects
passed so far to `Enqueue` and to `UpdateStatus`. -/
structure World where
  cache : Lister SourceResolver
  enqueued : List SourceResolver
  updated : List SourceResolver

/-- The end of `Reconcile`, from `if !needUpdate` on. `sourceResolver` is the pointer the
lister returned for `ns`, `name`, so the assignment to `Status.ObservedGeneration` writes
into the cache. -/
def Reconciler.persist (c : Reconciler) (w : World) (ns name : String)
    (sourceResolver : SourceResolver) (needUpdate : Bool) : Outcome × World :=
  if !needUpdate then
    (Outcome.returned none, w)
  else
    let sourceResolver := { sourceResolver with
      Status := { sourceResolver.Status with ObservedGeneration := sourceResolver.Generation } }
    (Outcome.returned (c.UpdateStatus sourceResolver),
      { w with cache := w.cache.put ns name sourceResolver,
               updated := w.updated ++ [sourceResolver] })

/-- The method `Reconciler.Reconcile`. The results of `Run` are used without a look at
`err`: when `Run` returned the nil object, `newSourceResolver.PollingReady()` reads the
status through a nil pointer and the call panics. `Enqueue` and `UpdateStatus` are given
`sourceResolver`, the object of the lister, not `newSourceResolver`. -/
def Reconciler.Reconcile (c : Reconciler) (w : World) (key : String) : Outcome × World :=
  match SplitMetaNamespaceKey key with
  | Except.error err => (Outcome.returned (some err), w)
  | Except.ok (ns, sourceResolverName) =>
    match w.cache ns sourceResolverName with
    | Except.error err =>
      if IsNotFound err then (Outcome.returned none, w) else (Outcome.returned (some err), w)
    | Except.ok sourceResolver =>
      let result := c.ResolveSource sourceResolver
      match result.obj with
      | none => (Outcome.panicked, w)
      | some newSourceResolver =>
        if newSourceResolver.PollingReady then
          match c.Enqueuer sourceResolver with
          | some err =>
            (Outcome.returned (some err), { w with enqueued := w.enqueued ++ [sourceResolver] })
          | none =>
            c.persist { w with enqueued := w.enqueued ++ [sourceResolver] } ns sourceResolverName
              sourceResolver result.needUpdate
        else
          c.persist w ns sourceResolverName sourceResolver result.needUpdate

/-- The reconciler wired to the resolution engine `r`, read at clock `now`. -/
def withEngine (r : Resolve) (now : Nat) (enqueue update : SourceResolver → Option Error) :
    Reconciler :=
  { ResolveSource := fun source => (r.Run now source).1, Enqueuer := enqueue,
    UpdateStatus := update }

end sourceresolver

namespace builder

/-! ## `pkg/reconciler/v1alpha1/builder/builder.go` -/

/-- Modelled from the spec: the update policy type of the absent package `v1alpha1`,
"UpdatePolicy∈{Manual,Polling}"; `Other` stands for any other value of the Go string type. -/
inductive BuilderUpdatePolicy where
  | Manual
  | Polling
  | Other (value : String)
  deriving DecidableEq, Repr

/-- The `v1alpha1.BuilderSpec`: the fields of the test file and the update policy. -/
structure BuilderSpec where
  Image : String
  ImagePullSecrets : List String
  UpdatePolicy : BuilderUpdatePolicy
  deriving DecidableEq, Repr

/-- One entry of the buildpack metadata of a builder image. -/
structure BuildpackMetadata where
  ID : String
  Version : String
  deriving DecidableEq, Repr

/-- The `v1alpha1.BuilderRecord` returned by `GetBuilderImage`. -/
structure BuilderRecord where
  Buildpacks : List BuildpackMetadata
  Image : String
  Stack : String
  deriving DecidableEq, Repr

/-- The `v1alpha1.BuilderStatus`, with the embedded `duckv1alpha1.Status` flattened. The Go
zero values (`[]`, `""`) are the unset fields. -/
structure BuilderStatus where
  ObservedGeneration : Int
  Conditions : List Condition
  BuilderMetadata : List BuildpackMetadata
  LatestImage : String
  Stack : String
  deriving DecidableEq, Repr

/-- The `v1alpha1.Builder`. -/
structure Builder where
  Namespace : String
  Name : String
  Generation : Int
  Spec : BuilderSpec
  Status : BuilderStatus
  deriving DecidableEq, Repr

/-- The generated `DeepCopy`. -/
def Builder.DeepCopy (b : Builder) : Builder := b

/-- The status with every volatile time erased. -/
def BuilderStatus.eraseVolatile (s : BuilderStatus) : BuilderStatus :=
  { s with Conditions := s.Conditions.map Condition.eraseVolatile }

/-- The apimachinery `equality.Semantic.DeepEqual` on builder statuses: equality up to the
volatile times. -/
def semanticDeepEqual (a b : BuilderStatus) : Bool :=
  decide (a.eraseVolatile = b.eraseVolatile)

/-- The `Reconciler` struct: `MetadataRetriever` is its `GetBuilderImage` method,
`Enqueuer` its `Enqueue` method, `UpdateStatus` the error result of the client call. The
`BuilderLister` is the `store` of the `World`. `SetDefaults` is the defaulting method of the
absent package `v1alpha1`, taken as a function of the spec. -/
structure Reconciler where
  MetadataRetriever : Builder → Except Error BuilderRecord
  Enqueuer : Builder → Option Error
  UpdateStatus : Builder → Option Error
  SetDefaults : BuilderSpec → BuilderSpec

/-- The state around a reconcile: the objects the lister returns, and the objects passed so
far to `Enqueue` and to `UpdateStatus`. A successful `UpdateStatus` stores the status it
was given, and the lister returns it from then on. -/
structure World where
  store : Lister Builder
  enqueued : List Builder
  updated : List Builder

/-- The method `Reconciler.reconcileBuilderStatus`; `now` is `metav1.Now()`. -/
def Reconciler.reconcileBuilderStatus (c : Reconciler) (now : Nat) (builder : Builder) :
    Builder × Option Error :=
  match c.MetadataRetriever builder with
  | Except.error err =>
    ({ builder with
        Status :=
          { ObservedGeneration := builder.Generation,
            Conditions :=
              [{ CondType := ConditionReady, Status := ConditionStatus.ConditionFalse,
                 Message := err.text, LastTransitionTime := now }],
            BuilderMetadata := [], LatestImage := "", Stack := "" } }, some err)
  | Except.ok cnbBuilder =>
    ({ builder with
        Status :=
          { ObservedGeneration := builder.Generation,
            Conditions :=
              [{ CondType := ConditionReady, Status := ConditionStatus.ConditionTrue,
                 Message := "", LastTransitionTime := now }],
            BuilderMetadata := cnbBuilder.Buildpacks,
            LatestImage := cnbBuilder.Image,
            Stack := cnbBuilder.Stack } }, none)

/-- The method `Reconciler.updateStatus`. -/
def Reconciler.updateStatus (c : Reconciler) (w : World) (desired : Builder) :
    Option Error × World :=
  match w.store desired.Namespace desired.Name with
  | Except.error err => (some err, w)
  | Except.ok original =>
    if semanticDeepEqual desired.Status original.Status then
      (none, w)
    else
      match c.UpdateStatus desired with
      | some err => (some err, { w with updated := w.updated ++ [desired] })
      | none =>
        (none, { w with
          store := w.store.put desired.Namespace desired.Name
            { original with Status := desired.Status },
          updated := w.updated ++ [desired] })

/-- The method `Reconciler.Reconcile`. -/
def Reconciler.Reconcile (c : Reconciler) (now : Nat) (w : World) (key : String) :
    Option Error × World :=
  match SplitMetaNamespaceKey key with
  | Except.error err => (some err, w)
  | Except.ok (ns, builderName) =>
    match w.store ns builderName with
    | Except.error err => if IsNotFound err then (none, w) else (some err, w)
    | Except.ok builder =>
      let builder := builder.DeepCopy
      let builder := { builder with Spec := c.SetDefaults builder.Spec }
      let status := c.reconcileBuilderStatus now builder
      let builder := status.1
      let err := status.2
      match c.updateStatus w builder with
      | (some updateErr, w) => (some updateErr, w)
      | (none, w) =>
        if builder.Spec.UpdatePolicy = BuilderUpdatePolicy.Polling then
          match c.Enqueuer builder with
          | some enqueueErr => (some enqueueErr, { w with enqueued := w.enqueued ++ [builder] })
          | none =>
            match err with
            | some err => (some (NewPermanentError err), { w with enqueued := w.enqueued ++ [builder] })
            | none => (none, { w with enqueued := w.enqueued ++ [builder] })
        else
          match err with
          | some err => (some (NewPermanentError err), w)
          | none => (none, w)

end builder

/-! ## Concrete inputs -/

/-- A resolved git branch: revision `main` resolved to a commit. -/
def gitCfg : ResolvedSourceConfig :=
  ResolvedSourceConfig.GitResolution "https://example/repo" "main" "a1b2c3"

/-- A git resolver: it can resolve objects with a git source and resolves them to `gitCfg`. -/
def gitResolver : Resolver :=
  { Resolve := fun _ => (gitCfg, none), CanResolve := fun s => s.Spec.Source.Git.isSome }

/-- A git resolver whose upstream is unreachable: unknown result and an error. -/
def gitResolverDown : Resolver :=
  { Resolve := fun _ => (ResolvedSourceConfig.Unknown, some (Error.msg "remote unreachable")),
    CanResolve := fun s => s.Spec.Source.Git.isSome }

/-- A registry resolver given a malformed image reference: unknown result and an error. -/
def registryResolverFailing : Resolver :=
  { Resolve := fun _ =>
      (ResolvedSourceConfig.Unknown, some (Error.msg "could not parse reference")),
    CanResolve := fun s => s.Spec.Source.Registry.isSome }

/-- The source of a git branch. -/
def gitSource : SourceResolverSpec :=
  { Source := { Git := some { URL := "https://example/repo", Revision := "main" },
                Blob := none, Registry := none } }

/-- A source resolver whose status already records `gitCfg` for its generation. -/
def srResolved : SourceResolver :=
  { Namespace := "ns", Name := "sr", Generation := 1, Spec := gitSource,
    Status :=
      { ObservedGeneration := 1,
        Conditions := [{ CondType := ConditionReady, Status := ConditionStatus.ConditionTrue,
                         Message := "", LastTransitionTime := 7 }],
        Source := some gitCfg, PollingEnabled := true } }

/-- A source resolver of generation 2 whose status is still empty and of generation 1. -/
def srFresh : SourceResolver :=
  { Namespace := "ns", Name := "sr", Generation := 2, Spec := gitSource,
    Status := { ObservedGeneration := 1, Conditions := [], Source := none,
                PollingEnabled := false } }

/-- A source resolver with a malformed registry image reference, never resolved. -/
def srRegistry : SourceResolver :=
  { Namespace := "ns", Name := "sr", Generation := 1,
    Spec := { Source := { Git := none, Blob := none,
                          Registry := some { Image := "not a reference" } } },
    Status := { ObservedGeneration := 0, Conditions := [], Source := none,
                PollingEnabled := false } }

/-- A lister cache holding the single object `obj` under `ns/sr`. -/
def cacheOf {α : Type} (obj : α) : Lister α :=
  fun ns name => if ns = "ns" ∧ name = "sr" then Except.ok obj else Except.error (Error.notFound name)

/-- The world before a reconcile of `ns/sr`: `obj` in the cache, no call made yet. -/
def sourceresolver.worldOf (obj : SourceResolver) : sourceresolver.World :=
  { cache := cacheOf obj, enqueued := [], updated := [] }

/-- A builder record as `GetBuilderImage` returns it. -/
def builder.record : builder.BuilderRecord :=
  { Buildpacks := [{ ID := "io.buildpacks.nodejs", Version := "0.0.1" }],
    Image := "pivotalashwin/builder@sha256:7d8aa6", Stack := "io.buildpacks.stacks.bionic" }

/-- Defaulting as a function of the spec: an empty update policy becomes `Polling`. -/
def builder.defaults (spec : builder.BuilderSpec) : builder.BuilderSpec :=
  if spec.UpdatePolicy = builder.BuilderUpdatePolicy.Other "" then
    { spec with UpdatePolicy := builder.BuilderUpdatePolicy.Polling }
  else spec

/-- A reconciler whose metadata retrieval succeeds with `record` and whose `Enqueue` and
`UpdateStatus` succeed. -/
def builder.reconcilerOk : builder.Reconciler :=
  { MetadataRetriever := fun _ => Except.ok builder.record,
    Enqueuer := fun _ => none, UpdateStatus := fun _ => none,
    SetDefaults := builder.defaults }

/-- A reconciler whose metadata retrieval fails and whose `Enqueue` and `UpdateStatus`
succeed. -/
def builder.reconcilerFailing : builder.Reconciler :=
  { MetadataRetriever := fun _ => Except.error (Error.msg "image not found"),
    Enqueuer := fun _ => none, UpdateStatus := fun _ => none,
    SetDefaults := builder.defaults }

/-- The private builder of the test file, freshly created: empty status, no update policy. -/
def builder.fresh : builder.Builder :=
  { Namespace := "private-test", Name := "private-build-service-builder", Generation := 1,
    Spec := { Image := "pivotalashwin/builder:cnb", ImagePullSecrets := ["image-pull-secret"],
              UpdatePolicy := builder.BuilderUpdatePolicy.Other "" },
    Status := { ObservedGeneration := 0, Conditions := [], BuilderMetadata := [],
                LatestImage := "", Stack := "" } }

/-- The key of the private builder. -/
def builder.key : String := "private-test/private-build-service-builder"

/-- The world before the first reconcile of the private builder. -/
def builder.worldOf (b : builder.Builder) : builder.World :=
  { store := fun ns name =>
      if ns = "private-test" ∧ name = "private-build-service-builder" then Except.ok b
      else Except.error (Error.notFound name),
    enqueued := [], updated := [] }

/-! ## Resolver dispatch -/

/-- The loop finds no resolver when every `CanResolve` is false, after asking each one. -/
theorem selectResolver_none (source : SourceResolver) (rs : List Resolver) (index : Nat)
    (h : ∀ d ∈ rs, d.CanResolve source = false) :
    selectResolver source rs index =
      (none, (List.range rs.length).map (fun j => Call.CanResolve (index + j))) := by
  induction rs generalizing index with
  | nil => simp [selectResolver]
  | cons d rest ih =>
    have hd : d.CanResolve source = false := h d (List.mem_cons_self _ _)
    have hrest := ih (index + 1) (fun e he => h e (List.mem_cons_of_mem _ he))
    simp [selectResolver, hd, hrest, List.range_succ_eq_map, Nat.add_assoc, Nat.add_comm 1]

/-- The loop stops at the first resolver whose `CanResolve` is true: it returns that
resolver with its position and has asked exactly the resolvers up to it. -/
theorem selectResolver_firstMatch (source : SourceResolver) (pre : List Resolver)
    (c : Resolver) (post : List Resolver) (index : Nat)
    (hpre : ∀ d ∈ pre, d.CanResolve source = false) (hc : c.CanResolve source = true) :
    selectResolver source (pre ++ c :: post) index =
      (some (index + pre.length, c),
        (List.range (pre.length + 1)).map (fun j => Call.CanResolve (index + j))) := by
  induction pre generalizing index with
  | nil => simp [selectResolver, hc, List.range_succ_eq_map]
  | cons d rest ih =>
    have hd : d.CanResolve source = false := hpre d (List.mem_cons_self _ _)
    have hrest := ih (index + 1) (fun e he => hpre e (List.mem_cons_of_mem _ he))
    rw [List.cons_append, selectResolver, if_neg (by simp [hd]), hrest]
    simp only [List.length_cons]
    rw [List.range_succ_eq_map (rest.length + 1)]
    simp [Function.comp_def, Nat.add_assoc, Nat.add_comm 1]

/-- A list with a matching resolver splits at its first matching resolver. -/
theorem exists_firstMatch (source : SourceResolver) (rs : List Resolver)
    (h : ∃ c ∈ rs, c.CanResolve source = true) :
    ∃ pre c post, rs = pre ++ c :: post ∧ (∀ d ∈ pre, d.CanResolve source = false) ∧
      c.CanResolve source = true := by
  induction rs with
  | nil => simp at h
  | cons d rest ih =>
    by_cases hd : d.CanResolve source = true
    · exact ⟨[], d, rest, rfl, by simp, hd⟩
    · have hrest : ∃ c ∈ rest, c.CanResolve source = true := by
        obtain ⟨c, hmem, hc⟩ := h
        rcases List.mem_cons.mp hmem with heq | hin
        · exact absurd (heq ▸ hc) hd
        · exact ⟨c, hin, hc⟩
      obtain ⟨pre, c, post, hsplit, hpre, hc⟩ := ih hrest
      refine ⟨d :: pre, c, post, by simp [hsplit], ?_, hc⟩
      intro e he
      rcases List.mem_cons.mp he with heq | hin
      · subst heq; simpa using hd
      · exact hpre e hin

/-- What `Run` does once the list is split at its first matching resolver. -/
theorem Run_firstMatch (now : Nat) (source : SourceResolver) (pre : List Resolver)
    (c : Resolver) (post : List Resolver)
    (hpre : ∀ d ∈ pre, d.CanResolve source = false) (hc : c.CanResolve source = true) :
    Resolve.Run { Resolvers := pre ++ c :: post } now source =
      ({ obj := some (Resolve.updateSourceResolver now source (c.Resolve source).1),
         needUpdate :=
           (Resolve.updateSourceResolver now source (c.Resolve source).1).CompareStatus source,
         err := none },
        (List.range (pre.length + 1)).map Call.CanResolve ++ [Call.Resolve pre.length]) := by
  simp [Resolve.Run, selectResolver_firstMatch source pre c post 0 hpre hc,
    SourceResolver.DeepCopy]

/-- Claim C1: when some resolver of the list can resolve the object, `Run` splits the list
at the first such resolver `c`: it asks `CanResolve` of the resolvers up to `c` in order
and of none after it, calls `Resolve` on `c` alone, builds its result from the answer
of `c`, and returns the same whatever follows `c` in the list. -/
theorem Run_first_match_dispatch (r : Resolve) (now : Nat) (source : SourceResolver)
    (h : ∃ c ∈ r.Resolvers, c.CanResolve source = true) :
    ∃ pre c post, r.Resolvers = pre ++ c :: post ∧
      (∀ d ∈ pre, d.CanResolve source = false) ∧ c.CanResolve source = true ∧
      (r.Run now source).2 =
        (List.range (pre.length + 1)).map Call.CanResolve ++ [Call.Resolve pre.length] ∧
      (r.Run now source).1.obj =
        some (Resolve.updateSourceResolver now source (c.Resolve source).1) ∧
      ∀ post2 : List Resolver,
        Resolve.Run { Resolvers := pre ++ c :: post2 } now source = r.Run now source := by
  obtain ⟨pre, c, post, hsplit, hpre, hc⟩ := exists_firstMatch source r.Resolvers h
  have hr : r = { Resolvers := pre ++ c :: post } := by
    cases r
    simp only [Resolve.mk.injEq]
    exact hsplit
  refine ⟨pre, c, post, hsplit, hpre, hc, ?_, ?_, ?_⟩
  · rw [hr, Run_firstMatch now source pre c post hpre hc]
  · rw [hr, Run_firstMatch now source pre c post hpre hc]
  · intro post2
    rw [hr, Run_firstMatch now source pre c post hpre hc,
      Run_firstMatch now source pre c post2 hpre hc]

/-- Witness of claim C1: a registry resolver followed by two git resolvers, run on a git
source. -/
theorem Run_first_match_dispatch_witness :
    ∃ pre c post,
      [registryResolverFailing, gitResolver, gitResolverDown] = pre ++ c :: post ∧
      (∀ d ∈ pre, d.CanResolve srFresh = false) ∧ c.CanResolve srFresh = true ∧
      (Resolve.Run { Resolvers := [registryResolverFailing, gitResolver, gitResolverDown] }
          3 srFresh).2 =
        (List.range (pre.length + 1)).map Call.CanResolve ++ [Call.Resolve pre.length] ∧
      (Resolve.Run { Resolvers := [registryResolverFailing, gitResolver, gitResolverDown] }
          3 srFresh).1.obj =
        some (Resolve.updateSourceResolver 3 srFresh (c.Resolve srFresh).1) ∧
      ∀ post2 : List Resolver,
        Resolve.Run { Resolvers := pre ++ c :: post2 } 3 srFresh =
          Resolve.Run { Resolvers := [registryResolverFailing, gitResolver, gitResolverDown] }
            3 srFresh :=
  Run_first_match_dispatch
    { Resolvers := [registryResolverFailing, gitResolver, gitResolverDown] } 3 srFresh
    ⟨gitResolver, by simp, rfl⟩

/-- Claim C2: when the first matching resolver `c` answers an unknown source and the
observed generation of the object is its generation, `Run` returns the object itself,
so with the status of the input, and `needUpdate` is false. -/
theorem Run_staleness_guard (now : Nat) (source : SourceResolver) (pre : List Resolver)
    (c : Resolver) (post : List Resolver)
    (hpre : ∀ d ∈ pre, d.CanResolve source = false) (hc : c.CanResolve source = true)
    (hunknown : (c.Resolve source).1.IsUnknown = true)
    (hgen : source.Status.ObservedGeneration = source.Generation) :
    ∃ o, (Resolve.Run { Resolvers := pre ++ c :: post } now source).1.obj = some o ∧
      o.Status = source.Status ∧ o = source ∧
      (Resolve.Run { Resolvers := pre ++ c :: post } now source).1.needUpdate = false := by
  have hupd : Resolve.updateSourceResolver now source (c.Resolve source).1 = source := by
    simp [Resolve.updateSourceResolver, hunknown, hgen]
  rw [Run_firstMatch now source pre c post hpre hc, hupd]
  exact ⟨source, rfl, rfl, rfl, by simp [SourceResolver.CompareStatus]⟩

/-- Witness of claim C2: the unreachable git resolver on an object already resolved for its
generation. -/
theorem Run_staleness_guard_witness :
    ∃ o, (Resolve.Run { Resolvers := [registryResolverFailing] ++ gitResolverDown :: [] }
        9 srResolved).1.obj = some o ∧
      o.Status = srResolved.Status ∧ o = srResolved ∧
      (Resolve.Run { Resolvers := [registryResolverFailing] ++ gitResolverDown :: [] }
        9 srResolved).1.needUpdate = false :=
  Run_staleness_guard 9 srResolved [registryResolverFailing] gitResolverDown []
    (by simp [registryResolverFailing, srResolved, gitSource]) rfl rfl rfl

/-- The condition put in a list is in the list afterwards. -/
theorem setCondition_mem (c : Condition) (l : List Condition) : c ∈ setCondition c l := by
  induction l with
  | nil => simp [setCondition]
  | cons d rest ih =>
    by_cases hd : d.CondType = c.CondType
    · simp [setCondition, hd]
    · simp [setCondition, hd, ih]

/-- Outside the staleness guard `updateSourceResolver` rewrites three status fields of a
copy: the source, the ready condition and the polling flag. -/
theorem updateSourceResolver_outside (now : Nat) (sr : SourceResolver)
    (config : ResolvedSourceConfig)
    (hout : ¬ (config.IsUnknown = true ∧ sr.Status.ObservedGeneration = sr.Generation)) :
    Resolve.updateSourceResolver now sr config =
      { sr with Status :=
          { ObservedGeneration := sr.Status.ObservedGeneration,
            Conditions := setCondition
              { CondType := ConditionReady, Status := ConditionStatus.ConditionTrue,
                Message := "", LastTransitionTime := now } sr.Status.Conditions,
            Source := some config,
            PollingEnabled := config.IsPollable } } := by
  simp only [Resolve.updateSourceResolver]
  rw [if_neg hout]
  rfl

/-- On an object whose status already records the resolved source, resolving that source
again and resolving to unknown leave `Run` with the same pair of objects to compare: the
object and itself. No comparison of the two objects can tell the two runs apart. -/
theorem updateSourceResolver_same_arguments :
    Resolve.updateSourceResolver 7 srResolved gitCfg = srResolved ∧
      Resolve.updateSourceResolver 7 srResolved ResolvedSourceConfig.Unknown = srResolved :=
  ⟨by decide, by decide⟩

/-- Counterexample to claim C3 as stated: the git resolver matches, its answer is not
unknown, and the status of the object already records that answer, so `needUpdate` is
false. -/
theorem Run_needUpdate_false_outside_guard :
    gitResolver.CanResolve srResolved = true ∧
      (gitResolver.Resolve srResolved).1.IsUnknown = false ∧
      (Resolve.Run { Resolvers := [] ++ gitResolver :: [] } 7 srResolved).1.needUpdate = false :=
  ⟨rfl, rfl, by decide⟩

/-- Claim C3, amended: outside the staleness guard the object returned by `Run` has
`Status.Source` equal to the resolved config of the first matching resolver `c`, whatever
error `c` returned, its ready condition in the success state and its polling flag equal to
`IsPollable()`; `needUpdate` is true exactly when this status differs semantically from the
status of the input. -/
theorem Run_status_transition (now : Nat) (source : SourceResolver) (pre : List Resolver)
    (c : Resolver) (post : List Resolver)
    (hpre : ∀ d ∈ pre, d.CanResolve source = false) (hc : c.CanResolve source = true)
    (hout : ¬ ((c.Resolve source).1.IsUnknown = true ∧
      source.Status.ObservedGeneration = source.Generation)) :
    ∃ o, (Resolve.Run { Resolvers := pre ++ c :: post } now source).1.obj = some o ∧
      o.Status.Source = some (c.Resolve source).1 ∧
      o.Ready = true ∧
      o.Status.PollingEnabled = (c.Resolve source).1.IsPollable ∧
      ((Resolve.Run { Resolvers := pre ++ c :: post } now source).1.needUpdate = true ↔
        o.Status.eraseVolatile ≠ source.Status.eraseVolatile) := by
  rw [Run_firstMatch now source pre c post hpre hc]
  refine ⟨_, rfl, ?_, ?_, ?_, ?_⟩
  · rw [updateSourceResolver_outside now source _ hout]
  · rw [updateSourceResolver_outside now source _ hout]
    simp only [SourceResolver.Ready, List.any_eq_true]
    exact ⟨_, setCondition_mem _ _, by simp⟩
  · rw [updateSourceResolver_outside now source _ hout]
  · simp [SourceResolver.CompareStatus]

/-- Witness of the amended claim C3: a first resolution of a git branch. -/
theorem Run_status_transition_witness :
    ∃ o, (Resolve.Run { Resolvers := [registryResolverFailing] ++ gitResolver :: [] }
        3 srFresh).1.obj = some o ∧
      o.Status.Source = some (gitResolver.Resolve srFresh).1 ∧
      o.Ready = true ∧
      o.Status.PollingEnabled = (gitResolver.Resolve srFresh).1.IsPollable ∧
      ((Resolve.Run { Resolvers := [registryResolverFailing] ++ gitResolver :: [] }
          3 srFresh).1.needUpdate = true ↔
        o.Status.eraseVolatile ≠ srFresh.Status.eraseVolatile) :=
  Run_status_transition 3 srFresh [registryResolverFailing] gitResolver []
    (by simp [registryResolverFailing, srFresh, gitSource]) rfl (by decide)

/-- When no resolver of the list can resolve the object, `Run` returns no object,
`needUpdate` false and the error `invalid source type`, and has called no `Resolve`. -/
theorem Run_noMatch (r : Resolve) (now : Nat) (source : SourceResolver)
    (h : ∀ d ∈ r.Resolvers, d.CanResolve source = false) :
    r.Run now source =
      ({ obj := none, needUpdate := false, err := some (Error.msg "invalid source type") },
        (List.range r.Resolvers.length).map Call.CanResolve) := by
  simp [Resolve.Run, selectResolver_none source r.Resolvers 0 h]

/-! ## The source resolver reconciler -/

/-- What `Reconcile` does on an object found in the cache when the engine returns an object
with `needUpdate` true and `Enqueue` does not fail: it writes the generation into the
cache-owned object and passes that object to `UpdateStatus`, whose error it returns. -/
theorem sourceresolver.Reconcile_needUpdate (c : sourceresolver.Reconciler)
    (w : sourceresolver.World) (key ns name : String) (sr new : SourceResolver)
    (e : Option Error)
    (hkey : SplitMetaNamespaceKey key = Except.ok (ns, name))
    (hget : w.cache ns name = Except.ok sr)
    (hrun : c.ResolveSource sr = { obj := some new, needUpdate := true, err := e })
    (henq : c.Enqueuer sr = none) :
    (c.Reconcile w key).1 =
        Outcome.returned (c.UpdateStatus
          { sr with Status := { sr.Status with ObservedGeneration := sr.Generation } }) ∧
      (c.Reconcile w key).2.updated =
        w.updated ++
          [{ sr with Status := { sr.Status with ObservedGeneration := sr.Generation } }] ∧
      (c.Reconcile w key).2.cache ns name =
        Except.ok { sr with Status := { sr.Status with ObservedGeneration := sr.Generation } } := by
  simp only [sourceresolver.Reconciler.Reconcile, hkey, hget, hrun, henq]
  by_cases hp : new.PollingReady = true
  · simp [hp, sourceresolver.Reconciler.persist, Lister.put]
  · simp [hp, sourceresolver.Reconciler.persist, Lister.put]

/-- Claim C4 at a failing input: a fresh git source resolver is found in the cache, the
engine computes a status with `Source = gitCfg`, polling enabled and a ready condition and
returns `needUpdate = true`, `Enqueue` succeeds; `Reconcile` issues one `UpdateStatus`
call, and the object passed is the cache object with only its observed generation set:
its `Source` is absent, its conditions empty, its polling flag false. -/
theorem sourceresolver.Reconcile_persists_stored_status :
    (Resolve.Run { Resolvers := [gitResolver] } 3 srFresh).1.needUpdate = true ∧
      (Resolve.Run { Resolvers := [gitResolver] } 3 srFresh).1.obj =
        some { srFresh with Status :=
          { ObservedGeneration := 1,
            Conditions := [{ CondType := ConditionReady, Status := ConditionStatus.ConditionTrue,
                             Message := "", LastTransitionTime := 3 }],
            Source := some gitCfg, PollingEnabled := true } } ∧
      ((sourceresolver.withEngine { Resolvers := [gitResolver] } 3
          (fun _ => none) (fun _ => none)).Reconcile
        (sourceresolver.worldOf srFresh) "ns/sr").2.updated =
        [{ srFresh with Status :=
            { ObservedGeneration := 2, Conditions := [], Source := none,
              PollingEnabled := false } }] :=
  ⟨by decide, by decide, by decide⟩

/-- Claim C5 at a failing input: the registry resolver returns an error; `Run` returns a
nil error, and `Reconcile`, after one successful `UpdateStatus`, returns nil instead of a
permanent error. -/
theorem sourceresolver.Reconcile_drops_resolve_error :
    (registryResolverFailing.Resolve srRegistry).2 =
        some (Error.msg "could not parse reference") ∧
      (Resolve.Run { Resolvers := [registryResolverFailing] } 3 srRegistry).1.err = none ∧
      ((sourceresolver.withEngine { Resolvers := [registryResolverFailing] } 3
          (fun _ => none) (fun _ => none)).Reconcile
        (sourceresolver.worldOf srRegistry) "ns/sr").1 = Outcome.returned none ∧
      ((sourceresolver.withEngine { Resolvers := [registryResolverFailing] } 3
          (fun _ => none) (fun _ => none)).Reconcile
        (sourceresolver.worldOf srRegistry) "ns/sr").2.updated.length = 1 :=
  ⟨rfl, by decide, by decide, by decide⟩

/-- Claim C6 at a failing input: with an empty resolver list `Run` returns no object,
`needUpdate` false and the structural error without any call, and `Reconcile` on an object
found in the cache calls `PollingReady` on the absent object: it panics instead of
returning the error. No `Enqueue` or `UpdateStatus` call is made. -/
theorem sourceresolver.Reconcile_panics_on_structural_error :
    Resolve.Run { Resolvers := [] } 3 srFresh =
        ({ obj := none, needUpdate := false, err := some (Error.msg "invalid source type") },
          []) ∧
      ((sourceresolver.withEngine { Resolvers := [] } 3
          (fun _ => none) (fun _ => none)).Reconcile
        (sourceresolver.worldOf srFresh) "ns/sr").1 = Outcome.panicked ∧
      ((sourceresolver.withEngine { Resolvers := [] } 3
          (fun _ => none) (fun _ => none)).Reconcile
        (sourceresolver.worldOf srFresh) "ns/sr").2.enqueued = [] ∧
      ((sourceresolver.withEngine { Resolvers := [] } 3
          (fun _ => none) (fun _ => none)).Reconcile
        (sourceresolver.worldOf srFresh) "ns/sr").2.updated = [] :=
  ⟨rfl, by decide, by decide, by decide⟩

/-- Claim C10 at a failing input: the cache holds a source resolver of generation 2 with
observed generation 1; after `Reconcile` the cache holds an object with observed
generation 2, which is not the object it held before. -/
theorem sourceresolver.Reconcile_mutates_cache_object :
    (sourceresolver.worldOf srFresh).cache "ns" "sr" = Except.ok srFresh ∧
      ((sourceresolver.withEngine { Resolvers := [gitResolver] } 3
          (fun _ => none) (fun _ => none)).Reconcile
        (sourceresolver.worldOf srFresh) "ns/sr").2.cache "ns" "sr" =
        Except.ok { srFresh with Status :=
          { ObservedGeneration := 2, Conditions := [], Source := none,
            PollingEnabled := false } } ∧
      ({ srFresh with Status :=
          { ObservedGeneration := 2, Conditions := [], Source := none,
            PollingEnabled := false } } : SourceResolver) ≠ srFresh :=
  ⟨rfl, rfl, by decide⟩

/-! ## The builder reconciler -/

/-- Claim C8: when `GetBuilderImage` fails with `e`, `reconcileBuilderStatus` returns `e`
and the builder with its status replaced by the observed generation and one Ready
condition, status False, message the text of `e`, the other fields unset; when it succeeds
with `r`, it returns no error and the builder with its status replaced by the observed
generation, one Ready condition with status True and empty message, and the buildpacks,
image and stack of `r`. The rest of the builder, its spec included, is unchanged. -/
theorem builder.reconcileBuilderStatus_synthesis (c : builder.Reconciler) (now : Nat)
    (b : builder.Builder) :
    (∀ e, c.MetadataRetriever b = Except.error e →
      c.reconcileBuilderStatus now b =
        ({ b with Status :=
            { ObservedGeneration := b.Generation,
              Conditions := [{ CondType := ConditionReady,
                               Status := ConditionStatus.ConditionFalse,
                               Message := e.text, LastTransitionTime := now }],
              BuilderMetadata := [], LatestImage := "", Stack := "" } }, some e)) ∧
    (∀ r, c.MetadataRetriever b = Except.ok r →
      c.reconcileBuilderStatus now b =
        ({ b with Status :=
            { ObservedGeneration := b.Generation,
              Conditions := [{ CondType := ConditionReady,
                               Status := ConditionStatus.ConditionTrue,
                               Message := "", LastTransitionTime := now }],
              BuilderMetadata := r.Buildpacks, LatestImage := r.Image,
              Stack := r.Stack } }, none)) ∧
    (c.reconcileBuilderStatus now b).1.Spec = b.Spec := by
  refine ⟨?_, ?_, ?_⟩
  · intro e he
    simp [builder.Reconciler.reconcileBuilderStatus, he]
  · intro r hr
    simp [builder.Reconciler.reconcileBuilderStatus, hr]
  · cases h : c.MetadataRetriever b <;>
      simp [builder.Reconciler.reconcileBuilderStatus, h]

/-- Witness of claim C8: a failing and a succeeding retrieval on the private builder. -/
theorem builder.reconcileBuilderStatus_synthesis_witness :
    builder.reconcilerFailing.reconcileBuilderStatus 5 builder.fresh =
        ({ builder.fresh with Status :=
            { ObservedGeneration := 1,
              Conditions := [{ CondType := ConditionReady,
                               Status := ConditionStatus.ConditionFalse,
                               Message := "image not found", LastTransitionTime := 5 }],
              BuilderMetadata := [], LatestImage := "", Stack := "" } },
          some (Error.msg "image not found")) ∧
      builder.reconcilerOk.reconcileBuilderStatus 5 builder.fresh =
        ({ builder.fresh with Status :=
            { ObservedGeneration := 1,
              Conditions := [{ CondType := ConditionReady,
                               Status := ConditionStatus.ConditionTrue,
                               Message := "", LastTransitionTime := 5 }],
              BuilderMetadata := builder.record.Buildpacks,
              LatestImage := builder.record.Image,
              Stack := builder.record.Stack } }, none) :=
  ⟨(builder.reconcileBuilderStatus_synthesis builder.reconcilerFailing 5 builder.fresh).1
      (Error.msg "image not found") rfl,
    (builder.reconcileBuilderStatus_synthesis builder.reconcilerOk 5 builder.fresh).2.1
      builder.record rfl⟩

/-- The method `reconcileBuilderStatus` leaves the spec of the builder as it is. -/
theorem builder.reconcileBuilderStatus_Spec (c : builder.Reconciler) (now : Nat)
    (b : builder.Builder) : (c.reconcileBuilderStatus now b).1.Spec = b.Spec := by
  cases h : c.MetadataRetriever b <;> simp [builder.Reconciler.reconcileBuilderStatus, h]

/-- The method `updateStatus` makes no `Enqueue` call. -/
theorem builder.updateStatus_enqueued (c : builder.Reconciler) (w : builder.World)
    (desired : builder.Builder) : (c.updateStatus w desired).2.enqueued = w.enqueued := by
  unfold builder.Reconciler.updateStatus
  split
  · rfl
  · split
    · rfl
    · split <;> rfl

/-- Claim C9: for a builder found in the cache whose status persistence succeeds,
`Reconcile` calls `Enqueue` once, on the reconciled builder, when the update policy of the
defaulted spec is `Polling` and not at all otherwise, whether retrieval failed or not; a
failing `Enqueue` is returned as it is; otherwise a failed retrieval with `e` gives the
permanent error wrapping `e` and a successful retrieval gives nil. -/
theorem builder.Reconcile_polling (c : builder.Reconciler) (now : Nat) (w : builder.World)
    (key ns name : String) (b : builder.Builder)
    (hkey : SplitMetaNamespaceKey key = Except.ok (ns, name))
    (hget : w.store ns name = Except.ok b)
    (hpersist : (c.updateStatus w
      (c.reconcileBuilderStatus now { b with Spec := c.SetDefaults b.Spec }).1).1 = none) :
    (c.Reconcile now w key).2.enqueued =
        w.enqueued ++
          (if (c.SetDefaults b.Spec).UpdatePolicy = builder.BuilderUpdatePolicy.Polling then
            [(c.reconcileBuilderStatus now { b with Spec := c.SetDefaults b.Spec }).1]
          else []) ∧
      (∀ enqueueErr,
        (c.SetDefaults b.Spec).UpdatePolicy = builder.BuilderUpdatePolicy.Polling →
        c.Enqueuer (c.reconcileBuilderStatus now { b with Spec := c.SetDefaults b.Spec }).1 =
          some enqueueErr →
        (c.Reconcile now w key).1 = some enqueueErr) ∧
      (((c.SetDefaults b.Spec).UpdatePolicy = builder.BuilderUpdatePolicy.Polling →
          c.Enqueuer (c.reconcileBuilderStatus now { b with Spec := c.SetDefaults b.Spec }).1 =
            none) →
        (∀ e, c.MetadataRetriever { b with Spec := c.SetDefaults b.Spec } = Except.error e →
          (c.Reconcile now w key).1 = some (NewPermanentError e)) ∧
        (∀ r, c.MetadataRetriever { b with Spec := c.SetDefaults b.Spec } = Except.ok r →
          (c.Reconcile now w key).1 = none)) := by
  have hspec := builder.reconcileBuilderStatus_Spec c now
    { b with Spec := c.SetDefaults b.Spec }
  have henq := builder.updateStatus_enqueued c w
    (c.reconcileBuilderStatus now { b with Spec := c.SetDefaults b.Spec }).1
  rcases hu : c.updateStatus w
    (c.reconcileBuilderStatus now { b with Spec := c.SetDefaults b.Spec }).1 with ⟨ue, w2⟩
  rw [hu] at hpersist henq
  simp only at hpersist henq
  subst hpersist
  simp only [builder.Reconciler.Reconcile, hkey, hget, builder.Builder.DeepCopy, hu, hspec]
  by_cases hpol : (c.SetDefaults b.Spec).UpdatePolicy = builder.BuilderUpdatePolicy.Polling
  · simp only [hpol, if_true]
    cases hq : c.Enqueuer
      (c.reconcileBuilderStatus now { b with Spec := c.SetDefaults b.Spec }).1 with
    | some enqueueErr => simp [henq]
    | none =>
      cases hm : c.MetadataRetriever { b with Spec := c.SetDefaults b.Spec } <;>
        simp [henq, builder.Reconciler.reconcileBuilderStatus, hm, NewPermanentError]
  · simp only [hpol, if_false]
    cases hm : c.MetadataRetriever { b with Spec := c.SetDefaults b.Spec } <;>
      simp [henq, builder.Reconciler.reconcileBuilderStatus, hm, NewPermanentError]

/-- Witness of claim C9: the private builder, defaulted to `Polling`, with a failing
retrieval: the reconcile returns the permanent error wrapping the retrieval error. -/
theorem builder.Reconcile_polling_witness :
    (builder.reconcilerFailing.Reconcile 5 (builder.worldOf builder.fresh) builder.key).2.enqueued
        = [(builder.reconcilerFailing.reconcileBuilderStatus 5
            { builder.fresh with Spec := builder.defaults builder.fresh.Spec }).1] ∧
      (builder.reconcilerFailing.Reconcile 5 (builder.worldOf builder.fresh) builder.key).1 =
        some (NewPermanentError (Error.msg "image not found")) :=
  ⟨(builder.Reconcile_polling builder.reconcilerFailing 5 (builder.worldOf builder.fresh)
      builder.key "private-test" "private-build-service-builder" builder.fresh rfl rfl
      (by decide)).1,
    ((builder.Reconcile_polling builder.reconcilerFailing 5 (builder.worldOf builder.fresh)
      builder.key "private-test" "private-build-service-builder" builder.fresh rfl rfl
      (by decide)).2.2 (fun _ => rfl)).1 (Error.msg "image not found") rfl⟩

/-- The method `reconcileBuilderStatus` changes the status of the builder only. -/
theorem builder.reconcileBuilderStatus_frame (c : builder.Reconciler) (now : Nat)
    (b : builder.Builder) :
    (c.reconcileBuilderStatus now b).1 =
      { b with Status := (c.reconcileBuilderStatus now b).1.Status } := by
  cases h : c.MetadataRetriever b <;> simp [builder.Reconciler.reconcileBuilderStatus, h]

/-- Up to the volatile times, the status `reconcileBuilderStatus` computes depends on the
retrieval outcome and the generation only. -/
theorem builder.reconcileBuilderStatus_eraseVolatile (c : builder.Reconciler)
    (now1 now2 : Nat) (b1 b2 : builder.Builder)
    (hret : c.MetadataRetriever b1 = c.MetadataRetriever b2)
    (hgen : b1.Generation = b2.Generation) :
    (c.reconcileBuilderStatus now1 b1).1.Status.eraseVolatile =
      (c.reconcileBuilderStatus now2 b2).1.Status.eraseVolatile := by
  cases h : c.MetadataRetriever b2 <;>
    simp [builder.Reconciler.reconcileBuilderStatus, hret, h, hgen,
      builder.BuilderStatus.eraseVolatile, Condition.eraseVolatile]

/-- What `updateStatus` does when `UpdateStatus` cannot fail and the lister holds `b` under
the identity of `desired`: nothing when the statuses are semantically equal, else one
`UpdateStatus` call, after which the lister holds `b` with the desired status. -/
theorem builder.updateStatus_effect (c : builder.Reconciler) (w : builder.World)
    (desired b : builder.Builder)
    (hget : w.store desired.Namespace desired.Name = Except.ok b)
    (hupd : ∀ x, c.UpdateStatus x = none) :
    c.updateStatus w desired =
      (none,
        if builder.semanticDeepEqual desired.Status b.Status = true then w
        else { w with
          store := w.store.put desired.Namespace desired.Name
            { b with Status := desired.Status },
          updated := w.updated ++ [desired] }) := by
  unfold builder.Reconciler.updateStatus
  rw [hget]
  by_cases heq : builder.semanticDeepEqual desired.Status b.Status = true
  · simp [heq]
  · simp [heq, hupd]

/-- After `updateStatus` has succeeded, the rest of `Reconcile` leaves the lister and the
`UpdateStatus` log as they are. -/
theorem builder.Reconcile_after_updateStatus (c : builder.Reconciler) (now : Nat)
    (w w2 : builder.World) (key ns name : String) (b : builder.Builder)
    (hkey : SplitMetaNamespaceKey key = Except.ok (ns, name))
    (hget : w.store ns name = Except.ok b)
    (hu : c.updateStatus w
      (c.reconcileBuilderStatus now { b with Spec := c.SetDefaults b.Spec }).1 = (none, w2)) :
    (c.Reconcile now w key).2.updated = w2.updated ∧
      (c.Reconcile now w key).2.store = w2.store := by
  simp only [builder.Reconciler.Reconcile, hkey, hget, builder.Builder.DeepCopy, hu]
  split
  · split
    · exact ⟨rfl, rfl⟩
    · split <;> exact ⟨rfl, rfl⟩
  · split <;> exact ⟨rfl, rfl⟩

/-- The effect of one `Reconcile` on the `UpdateStatus` log and on the stored object, for
a builder stored under its own namespace and name, when `UpdateStatus` cannot fail. -/
theorem builder.Reconcile_effect (c : builder.Reconciler) (now : Nat) (w : builder.World)
    (key ns name : String) (b : builder.Builder)
    (hkey : SplitMetaNamespaceKey key = Except.ok (ns, name))
    (hget : w.store ns name = Except.ok b)
    (hns : b.Namespace = ns) (hname : b.Name = name)
    (hupd : ∀ x, c.UpdateStatus x = none) :
    (c.Reconcile now w key).2.updated =
        w.updated ++
          (if builder.semanticDeepEqual
              (c.reconcileBuilderStatus now { b with Spec := c.SetDefaults b.Spec }).1.Status
              b.Status = true then []
           else [(c.reconcileBuilderStatus now { b with Spec := c.SetDefaults b.Spec }).1]) ∧
      (c.Reconcile now w key).2.store ns name =
        Except.ok
          (if builder.semanticDeepEqual
              (c.reconcileBuilderStatus now { b with Spec := c.SetDefaults b.Spec }).1.Status
              b.Status = true then b
           else { b with Status :=
             (c.reconcileBuilderStatus now { b with Spec := c.SetDefaults b.Spec }).1.Status }) := by
  have hframe := builder.reconcileBuilderStatus_frame c now
    { b with Spec := c.SetDefaults b.Spec }
  have hdns : (c.reconcileBuilderStatus now
      { b with Spec := c.SetDefaults b.Spec }).1.Namespace = ns := by
    rw [hframe]; exact hns
  have hdname : (c.reconcileBuilderStatus now
      { b with Spec := c.SetDefaults b.Spec }).1.Name = name := by
    rw [hframe]; exact hname
  have hget2 : w.store
      (c.reconcileBuilderStatus now { b with Spec := c.SetDefaults b.Spec }).1.Namespace
      (c.reconcileBuilderStatus now { b with Spec := c.SetDefaults b.Spec }).1.Name =
        Except.ok b := by
    rw [hdns, hdname]; exact hget
  have hu := builder.updateStatus_effect c w _ b hget2 hupd
  obtain ⟨h1, h2⟩ := builder.Reconcile_after_updateStatus c now w _ key ns name b hkey hget hu
  rw [h1, h2]
  by_cases heq : builder.semanticDeepEqual
      (c.reconcileBuilderStatus now { b with Spec := c.SetDefaults b.Spec }).1.Status
      b.Status = true
  · simp [heq, hget]
  · simp [heq, hdns, hdname, Lister.put]

/-- Claim C7: let the lister return what the last `UpdateStatus` stored, let `UpdateStatus`
succeed, and let metadata retrieval not depend on the status of the builder. For a builder
found in the cache under its own namespace and name, the first of two consecutive
reconciles issues `UpdateStatus` exactly when the status it computes is not semantically
equal (volatile times ignored) to the stored status, the second issues none, and so the two
together issue at most one. -/
theorem builder.Reconcile_idempotent (c : builder.Reconciler) (now1 now2 : Nat)
    (w : builder.World) (key ns name : String) (b : builder.Builder)
    (hkey : SplitMetaNamespaceKey key = Except.ok (ns, name))
    (hget : w.store ns name = Except.ok b)
    (hns : b.Namespace = ns) (hname : b.Name = name)
    (hupd : ∀ x, c.UpdateStatus x = none)
    (hret : ∀ x s, c.MetadataRetriever { x with Status := s } = c.MetadataRetriever x) :
    (c.Reconcile now2 (c.Reconcile now1 w key).2 key).2.updated =
        (c.Reconcile now1 w key).2.updated ∧
      (c.Reconcile now1 w key).2.updated =
        w.updated ++
          (if builder.semanticDeepEqual
              (c.reconcileBuilderStatus now1 { b with Spec := c.SetDefaults b.Spec }).1.Status
              b.Status = true then []
           else [(c.reconcileBuilderStatus now1 { b with Spec := c.SetDefaults b.Spec }).1]) ∧
      (c.Reconcile now2 (c.Reconcile now1 w key).2 key).2.updated.length ≤
        w.updated.length + 1 := by
  obtain ⟨hupd1, hstore1⟩ :=
    builder.Reconcile_effect c now1 w key ns name b hkey hget hns hname hupd
  have hsecond : (c.Reconcile now2 (c.Reconcile now1 w key).2 key).2.updated =
      (c.Reconcile now1 w key).2.updated := by
    by_cases heq : builder.semanticDeepEqual
        (c.reconcileBuilderStatus now1 { b with Spec := c.SetDefaults b.Spec }).1.Status
        b.Status = true
    · rw [if_pos heq] at hstore1
      obtain ⟨hupd2, _⟩ := builder.Reconcile_effect c now2 (c.Reconcile now1 w key).2 key
        ns name b hkey hstore1 hns hname hupd
      have hsame : builder.semanticDeepEqual
          (c.reconcileBuilderStatus now2 { b with Spec := c.SetDefaults b.Spec }).1.Status
          b.Status = true := by
        have herase := builder.reconcileBuilderStatus_eraseVolatile c now2 now1
          { b with Spec := c.SetDefaults b.Spec } { b with Spec := c.SetDefaults b.Spec }
          rfl rfl
        simp only [builder.semanticDeepEqual, decide_eq_true_eq] at heq ⊢
        rw [herase]; exact heq
      rw [hupd2, if_pos hsame, List.append_nil]
    · rw [if_neg heq] at hstore1
      obtain ⟨hupd2, _⟩ := builder.Reconcile_effect c now2 (c.Reconcile now1 w key).2 key
        ns name _ hkey hstore1 hns hname hupd
      have hsame : builder.semanticDeepEqual
          (c.reconcileBuilderStatus now2
            { ({ b with Status := (c.reconcileBuilderStatus now1
                  { b with Spec := c.SetDefaults b.Spec }).1.Status } : builder.Builder) with
              Spec := c.SetDefaults b.Spec }).1.Status
          (c.reconcileBuilderStatus now1 { b with Spec := c.SetDefaults b.Spec }).1.Status
            = true := by
        have herase := builder.reconcileBuilderStatus_eraseVolatile c now2 now1
          { ({ b with Status := (c.reconcileBuilderStatus now1
                { b with Spec := c.SetDefaults b.Spec }).1.Status } : builder.Builder) with
            Spec := c.SetDefaults b.Spec }
          { b with Spec := c.SetDefaults b.Spec }
          (hret { b with Spec := c.SetDefaults b.Spec } _) rfl
        simp only [builder.semanticDeepEqual, decide_eq_true_eq]
        exact herase
      rw [hupd2]
      simp only at hsame ⊢
      rw [if_pos hsame, List.append_nil]
  refine ⟨hsecond, hupd1, ?_⟩
  rw [hsecond, hupd1]
  split <;> simp

/-- Witness of claim C7: two reconciles of the freshly created private builder against an
unchanged builder image, at clock readings 5 and 6. -/
theorem builder.Reconcile_idempotent_witness :
    (builder.reconcilerOk.Reconcile 6
        (builder.reconcilerOk.Reconcile 5 (builder.worldOf builder.fresh) builder.key).2
        builder.key).2.updated =
      (builder.reconcilerOk.Reconcile 5 (builder.worldOf builder.fresh) builder.key).2.updated ∧
    (builder.reconcilerOk.Reconcile 6
        (builder.reconcilerOk.Reconcile 5 (builder.worldOf builder.fresh) builder.key).2
        builder.key).2.updated.length ≤ (builder.worldOf builder.fresh).updated.length + 1 :=
  ⟨(builder.Reconcile_idempotent builder.reconcilerOk 5 6 (builder.worldOf builder.fresh)
      builder.key "private-test" "private-build-service-builder" builder.fresh
      rfl rfl rfl rfl (fun _ => rfl) (fun _ _ => rfl)).1,
    (builder.Reconcile_idempotent builder.reconcilerOk 5 6 (builder.worldOf builder.fresh)
      builder.key "private-test" "private-build-service-builder" builder.fresh
      rfl rfl rfl rfl (fun _ => rfl) (fun _ _ => rfl)).2.2⟩

end Kpack
